import Mathlib

/-!
Shallow embedding of the temporal traffic aggregation engine of the
bike-share map page (`src/routes/+page.svelte`).

The embedding mirrors the script part of the page:
* `minutesSinceMidnight` — `date.getHours() * 60 + date.getMinutes()`;
* `pushAt` / `ingest` — the ingestion loop of `loadStationDemand` filling
  `departuresByMinute` / `arrivalsByMinute` (1440 buckets each);
* `rollupCount` — `d3.rollup(list, v => v.length, keyFn)` specialised to
  counting occurrences per station id (association list of counts);
* `filterByMinute` — the window selector / bucket slicer;
* `filteredDepartures`, `filteredArrivals`, `filteredStations` — the
  reactive statements joining the aggregate maps onto the station list.

JavaScript `%` on numbers is truncating remainder, embedded as `Int.tmod`.
Array `slice(a)` / `slice(0, b)` / `slice(a, b)` become `drop a` /
`take b` / `(drop a).take (b - a)`, and `.flat()` becomes `List.flatten`.
-/

namespace BikeWatch

/-- Time-of-day part of a parsed timestamp: the only fields the engine
reads from a `Date` are `getHours()` and `getMinutes()`. -/
structure DateTime where
  hour : Nat
  minute : Nat
deriving DecidableEq, Repr

/-- A trip row after the ingestion loop parsed its two timestamps. -/
structure Trip where
  start_station_id : String
  end_station_id : String
  started_at : DateTime
  ended_at : DateTime
deriving DecidableEq, Repr

/-- A station record as produced by `loadStationData` (coordinates are
opaque to the aggregation engine; no claim inspects them). -/
structure Station where
  id : String
  name : String
  lat : Int
  long : Int
deriving DecidableEq, Repr

/-- A station together with the derived traffic counts, as built by the
`filteredStations` reactive statement (`{...station, arrivals,
departures, totalTraffic}`). -/
structure TrafficRecord where
  id : String
  name : String
  lat : Int
  long : Int
  arrivals : Nat
  departures : Nat
  totalTraffic : Nat
deriving DecidableEq, Repr

/-- `minutesSinceMidnight(date)` — `date.getHours() * 60 + date.getMinutes()`. -/
def minutesSinceMidnight (date : DateTime) : Nat :=
  date.hour * 60 + date.minute

/-- A valid wall-clock time as `Date.getHours`/`getMinutes` return it. -/
def validDate (d : DateTime) : Prop :=
  d.hour < 24 ∧ d.minute < 60

instance (d : DateTime) : Decidable (validDate d) := by
  unfold validDate; infer_instance

/-- Both timestamps of the trip are valid wall-clock times (the Bucketer
assumes valid timestamps; malformed rows are rejected upstream). -/
def validTrip (t : Trip) : Prop :=
  validDate t.started_at ∧ validDate t.ended_at

instance (t : Trip) : Decidable (validTrip t) := by
  unfold validTrip; infer_instance

/-- Minute-of-day key for the departure bucket of a trip. -/
def startMinute (t : Trip) : Nat := minutesSinceMidnight t.started_at

/-- Minute-of-day key for the arrival bucket of a trip. -/
def endMinute (t : Trip) : Nat := minutesSinceMidnight t.ended_at

/-- `buckets[i].push(t)`: append `t` to the `i`-th bucket. -/
def pushAt (buckets : List (List Trip)) (i : Nat) (t : Trip) : List (List Trip) :=
  buckets.set i (buckets.getD i [] ++ [t])

/-- One ingestion pass of `loadStationDemand`: starting from two arrays of
1440 empty buckets, push each trip into `departuresByMinute[startMinute]`
and `arrivalsByMinute[endMinute]`. -/
def ingest (trips : List Trip) : List (List Trip) × List (List Trip) :=
  trips.foldl
    (fun buckets t =>
      (pushAt buckets.1 (startMinute t) t, pushAt buckets.2 (endMinute t) t))
    (List.replicate 1440 [], List.replicate 1440 [])

/-- The bucket-filling loop for a single bucket array, parameterised by the
minute key (`startMinute` for departures, `endMinute` for arrivals). -/
def bucketize (key : Trip → Nat) (trips : List Trip) : List (List Trip) :=
  trips.foldl (fun buckets t => pushAt buckets (key t) t) (List.replicate 1440 [])

/-- The `departuresByMinute` array after ingesting `trips`. -/
def departuresByMinute (trips : List Trip) : List (List Trip) :=
  bucketize startMinute trips

/-- The `arrivalsByMinute` array after ingesting `trips`. -/
def arrivalsByMinute (trips : List Trip) : List (List Trip) :=
  bucketize endMinute trips

/-- One step of `d3.rollup(..., v => v.length, key)`: bump the count
stored under `k`, inserting `(k, 1)` on first sight. -/
def incr : List (String × Nat) → String → List (String × Nat)
  | [], k => [(k, 1)]
  | (k', v) :: rest, k =>
      if k' = k then (k', v + 1) :: rest else (k', v) :: incr rest k

/-- `d3.rollup(trips, v => v.length, key)`: per-key occurrence counts. -/
def rollupCount (key : Trip → String) (trips : List Trip) : List (String × Nat) :=
  trips.foldl (fun m t => incr m (key t)) []

/-- `map.get(id) ?? 0`: count lookup defaulting to zero. -/
def getCount (m : List (String × Nat)) (k : String) : Nat :=
  (m.lookup k).getD 0

/-- `minMinute = (minute - 60 + 1440) % 1440` (JavaScript `%` = `tmod`). -/
def loIndex (minute : Int) : Nat :=
  ((minute - 60 + 1440).tmod 1440).toNat

/-- `maxMinute = (minute + 60) % 1440` (JavaScript `%` = `tmod`). -/
def hiIndex (minute : Int) : Nat :=
  ((minute + 60).tmod 1440).toNat

/-- `filterByMinute(tripsByMinute, minute)`: sentinel `-1` returns the full
trip list; otherwise slice the circular window `[minMinute, maxMinute]`
out of the 1440 buckets and flatten it. -/
def filterByMinute (trips : List Trip) (tripsByMinute : List (List Trip))
    (minute : Int) : List Trip :=
  if minute = -1 then trips
  else
    let minMinute := loIndex minute
    let maxMinute := hiIndex minute
    if minMinute > maxMinute then
      let beforeMidnight := tripsByMinute.drop minMinute
      let afterMidnight := tripsByMinute.take (maxMinute + 1)
      (beforeMidnight ++ afterMidnight).flatten
    else
      ((tripsByMinute.drop minMinute).take (maxMinute + 1 - minMinute)).flatten

/-- The bucket indices `filterByMinute` reads for a non-sentinel filter:
the same slicing applied to the index list `[0, …, 1439]`. -/
def windowIndices (minute : Int) : List Nat :=
  let minMinute := loIndex minute
  let maxMinute := hiIndex minute
  if minMinute > maxMinute then
    ((List.range 1440).drop minMinute) ++ ((List.range 1440).take (maxMinute + 1))
  else
    ((List.range 1440).drop minMinute).take (maxMinute + 1 - minMinute)

/-- Reactive statement `filteredDepartures`: sentinel reuses the cached
unfiltered map, otherwise re-aggregate the windowed trips by start id. -/
def filteredDepartures (trips : List Trip) (depsByMinute : List (List Trip))
    (departures : List (String × Nat)) (timeFilter : Int) : List (String × Nat) :=
  if timeFilter = -1 then departures
  else rollupCount (fun t => t.start_station_id)
    (filterByMinute trips depsByMinute timeFilter)

/-- Reactive statement `filteredArrivals`: sentinel reuses the cached
unfiltered map, otherwise re-aggregate the windowed trips by end id. -/
def filteredArrivals (trips : List Trip) (arrsByMinute : List (List Trip))
    (arrivals : List (String × Nat)) (timeFilter : Int) : List (String × Nat) :=
  if timeFilter = -1 then arrivals
  else rollupCount (fun t => t.end_station_id)
    (filterByMinute trips arrsByMinute timeFilter)

/-- The unfiltered departures map built once in `loadStationDemand`. -/
def departuresMap (trips : List Trip) : List (String × Nat) :=
  rollupCount (fun t => t.start_station_id) trips

/-- The unfiltered arrivals map built once in `loadStationDemand`. -/
def arrivalsMap (trips : List Trip) : List (String × Nat) :=
  rollupCount (fun t => t.end_station_id) trips

/-- Reactive statement `filteredStations`: one traffic record per station,
with `?? 0` defaults and `totalTraffic = arr + dep`. -/
def filteredStations (stations : List Station)
    (fArrivals fDepartures : List (String × Nat)) : List TrafficRecord :=
  stations.map fun station =>
    let arr := getCount fArrivals station.id
    let dep := getCount fDepartures station.id
    { id := station.id, name := station.name, lat := station.lat,
      long := station.long, arrivals := arr, departures := dep,
      totalTraffic := arr + dep }

/-- One full Aggregator pass for a given filter value: the pair of maps
the two reactive statements produce. -/
def aggregatorRun (trips : List Trip) (depsByMinute arrsByMinute : List (List Trip))
    (departures arrivals : List (String × Nat)) (timeFilter : Int) :
    List (String × Nat) × List (String × Nat) :=
  (filteredDepartures trips depsByMinute departures timeFilter,
   filteredArrivals trips arrsByMinute arrivals timeFilter)

/-- Two successive Aggregator passes over the same immutable inputs. -/
def aggregatorRunTwice (trips : List Trip)
    (depsByMinute arrsByMinute : List (List Trip))
    (departures arrivals : List (String × Nat)) (timeFilter : Int) :
    (List (String × Nat) × List (String × Nat)) ×
      (List (String × Nat) × List (String × Nat)) :=
  (aggregatorRun trips depsByMinute arrsByMinute departures arrivals timeFilter,
   aggregatorRun trips depsByMinute arrsByMinute departures arrivals timeFilter)

/-! ### Small concrete inputs used to exercise the definitions -/

/-- A trip departing 08:05, arriving 08:20. -/
def tripAB : Trip := ⟨"A", "B", ⟨8, 5⟩, ⟨8, 20⟩⟩

/-- A trip departing 08:50, arriving 09:10. -/
def tripBA : Trip := ⟨"B", "A", ⟨8, 50⟩, ⟨9, 10⟩⟩

/-- A midnight-crossing trip departing 23:50, arriving 00:10. -/
def tripCA : Trip := ⟨"C", "A", ⟨23, 50⟩, ⟨0, 10⟩⟩

/-- A sample station known to the registry. -/
def stationA : Station := ⟨"A", "Main St", 42, -71⟩

/-- A bucket array holding a single trip in bucket 0. -/
def bucketsWithTripAtZero : List (List Trip) :=
  (List.replicate 1440 []).set 0 [tripCA]

/-! ### List helper lemmas -/

theorem range'_drop : ∀ (i s n : Nat),
    (List.range' s n).drop i = List.range' (s + i) (n - i)
  | 0, _, _ => by simp
  | _ + 1, _, 0 => by simp
  | i + 1, s, n + 1 => by
      rw [List.range'_succ, List.drop_succ_cons, range'_drop i (s + 1) n]
      congr 1 <;> omega

theorem range'_take : ∀ (i s n : Nat),
    (List.range' s n).take i = List.range' s (min i n)
  | 0, _, _ => by simp
  | _ + 1, _, 0 => by simp
  | i + 1, s, n + 1 => by
      rw [List.range'_succ, List.take_succ_cons, range'_take i (s + 1) n]
      have h : min (i + 1) (n + 1) = min i n + 1 := by omega
      rw [h, List.range'_succ]

theorem range_drop (i n : Nat) :
    (List.range n).drop i = List.range' i (n - i) := by
  rw [List.range_eq_range', range'_drop]
  simp

theorem range_take (i n : Nat) :
    (List.range n).take i = List.range' 0 (min i n) := by
  rw [List.range_eq_range', range'_take]

/-! ### Arithmetic facts about the window bounds -/

theorem loIndex_ofNat (n : Nat) : loIndex (n : Int) = (n + 1380) % 1440 := by
  unfold loIndex
  have h : ((n : Int) - 60 + 1440) = ((n + 1380 : Nat) : Int) := by push_cast; ring
  rw [h, Int.tmod_eq_emod (Int.ofNat_nonneg _) (by norm_num)]
  omega

theorem hiIndex_ofNat (n : Nat) : hiIndex (n : Int) = (n + 60) % 1440 := by
  unfold hiIndex
  have h : ((n : Int) + 60) = ((n + 60 : Nat) : Int) := by push_cast; ring
  rw [h, Int.tmod_eq_emod (Int.ofNat_nonneg _) (by norm_num)]
  omega

theorem loIndex_lt (m : Int) : loIndex m < 1440 := by
  unfold loIndex
  have h1 : (m - 60 + 1440).tmod 1440 < 1440 :=
    Int.tmod_lt_of_pos _ (by norm_num)
  omega

theorem hiIndex_lt (m : Int) : hiIndex m < 1440 := by
  unfold hiIndex
  have h1 : (m + 60).tmod 1440 < 1440 :=
    Int.tmod_lt_of_pos _ (by norm_num)
  omega

/-- The slices taken by the selector are exactly the contiguous range
`[lo, hi]` when `lo ≤ hi` and the concatenation `[lo, 1439] ++ [0, hi]`
otherwise, as ranges of indices. -/
theorem windowIndices_eq_ranges (m : Int) :
    windowIndices m =
      if loIndex m ≤ hiIndex m then
        List.range' (loIndex m) (hiIndex m + 1 - loIndex m)
      else
        List.range' (loIndex m) (1440 - loIndex m) ++
          List.range' 0 (hiIndex m + 1) := by
  have hlo : loIndex m < 1440 := loIndex_lt m
  have hhi : hiIndex m < 1440 := hiIndex_lt m
  unfold windowIndices
  by_cases h : loIndex m ≤ hiIndex m
  · rw [if_neg (by omega), if_pos h, range_drop, range'_take]
    congr 1
    omega
  · rw [if_pos (by omega), if_neg h, range_drop, range_take]
    congr 2
    omega

theorem pushAt_length (bs : List (List Trip)) (i : Nat) (t : Trip) :
    (pushAt bs i t).length = bs.length := by
  simp [pushAt]

theorem foldl_pushAt_length (key : Trip → Nat) :
    ∀ (ts : List Trip) (acc : List (List Trip)),
      (ts.foldl (fun bs t => pushAt bs (key t) t) acc).length = acc.length
  | [], _ => rfl
  | t :: ts, acc => by
      rw [List.foldl_cons, foldl_pushAt_length key ts, pushAt_length]

theorem bucketize_length (key : Trip → Nat) (trips : List Trip) :
    (bucketize key trips).length = 1440 := by
  unfold bucketize
  rw [foldl_pushAt_length, List.length_replicate]

/-! ### Claim theorems about the Window Selector -/

/-- C1: for every center minute `m` in `[0, 1439]` and half-width 60, the
selector resolves an inclusive circular window of exactly 121 distinct
bucket indices, each in `[0, 1439]`: the contiguous range `[lo, hi]` when
`lo ≤ hi`, otherwise `[lo, 1439]` followed by `[0, hi]`. -/
theorem C1_window_121_distinct (n : Nat) (_hn : n ≤ 1439) :
    (windowIndices (n : Int)).length = 121 ∧
    (windowIndices (n : Int)).Nodup ∧
    (∀ i ∈ windowIndices (n : Int), i < 1440) ∧
    windowIndices (n : Int) =
      (if loIndex (n : Int) ≤ hiIndex (n : Int) then
        List.range' (loIndex (n : Int)) (hiIndex (n : Int) + 1 - loIndex (n : Int))
      else
        List.range' (loIndex (n : Int)) (1440 - loIndex (n : Int)) ++
          List.range' 0 (hiIndex (n : Int) + 1)) := by
  have hlo := loIndex_ofNat n
  have hhi := hiIndex_ofNat n
  have hlo' := loIndex_lt (n : Int)
  have hhi' := hiIndex_lt (n : Int)
  have hw := windowIndices_eq_ranges (n : Int)
  refine ⟨?_, ?_, ?_, hw⟩
  · rw [hw]
    split
    · rw [List.length_range']
      omega
    · rw [List.length_append, List.length_range', List.length_range']
      omega
  · rw [hw]
    split
    · exact List.nodup_range' _ _
    · rw [List.nodup_append]
      refine ⟨List.nodup_range' _ _, List.nodup_range' _ _, ?_⟩
      intro a ha hb
      rw [List.mem_range'_1] at ha hb
      omega
  · rw [hw]
    split <;> intro i hmem
    · rw [List.mem_range'_1] at hmem
      omega
    · rcases List.mem_append.mp hmem with h1 | h1 <;>
        rw [List.mem_range'_1] at h1 <;> omega

theorem C1_window_121_distinct_witness :
    (100 : Nat) ≤ 1439 ∧ (windowIndices ((100 : Nat) : Int)).length = 121 :=
  ⟨by decide, (C1_window_121_distinct 100 (by decide)).1⟩

/-- C2 counterexample: the claim puts minute 60 in the window for center
`m = 1439`, but the code computes `hi = (1439 + 60) % 1440 = 59`, so 60
is not selected even though it lies in the claimed set
`{1379..1439} ∪ {0..60}`. -/
theorem C2_wraparound_counterexample :
    (60 : Nat) ∉ windowIndices (1439 : Int) ∧
    (60 : Nat) ∈ List.range' 1379 61 ++ List.range' 0 61 := by
  constructor
  · have h1 : loIndex (1439 : Int) = 1379 := by decide
    have h2 : hiIndex (1439 : Int) = 59 := by decide
    rw [windowIndices_eq_ranges, h1, h2]
    norm_num
  · norm_num

/-- C2 (amended): wrap-around at the boundary centers with `h = 60`: for
center `m = 0` the window is `{1380..1439} ∪ {0..60}`, and for center
`m = 1439` it is `{1379..1439} ∪ {0..59}` (the code's `hi` for 1439 is
`(1439 + 60) % 1440 = 59`, not 60). -/
theorem C2_wraparound_amended :
    windowIndices (0 : Int) = List.range' 1380 60 ++ List.range' 0 61 ∧
    windowIndices (1439 : Int) = List.range' 1379 61 ++ List.range' 0 60 := by
  constructor
  · have h1 : loIndex (0 : Int) = 1380 := by decide
    have h2 : hiIndex (0 : Int) = 60 := by decide
    rw [windowIndices_eq_ranges, h1, h2]
    norm_num
  · have h1 : loIndex (1439 : Int) = 1379 := by decide
    have h2 : hiIndex (1439 : Int) = 59 := by decide
    rw [windowIndices_eq_ranges, h1, h2]
    norm_num

theorem loIndex_add_period (m : Int) (hm : 0 ≤ m) :
    loIndex (m + 1440) = loIndex m := by
  unfold loIndex
  rw [Int.tmod_eq_emod (by omega) (by norm_num),
    Int.tmod_eq_emod (by omega) (by norm_num)]
  omega

theorem hiIndex_add_period (m : Int) (hm : 0 ≤ m) :
    hiIndex (m + 1440) = hiIndex m := by
  unfold hiIndex
  rw [Int.tmod_eq_emod (by omega) (by norm_num),
    Int.tmod_eq_emod (by omega) (by norm_num)]
  omega

/-- C6 counterexample: the filter value 1441 lies outside the documented
range `[-1, 1440]`, yet the selector reports nothing: it silently resolves
the ordinary 121-slot window of the congruent center minute 1, and on a
concrete bucket set it returns that window's trips. -/
theorem C6_out_of_range_counterexample :
    windowIndices (1441 : Int) = windowIndices (1 : Int) ∧
    (windowIndices (1441 : Int)).length = 121 ∧
    filterByMinute [] bucketsWithTripAtZero (1441 : Int) = [tripCA] := by
  refine ⟨rfl, ?_, ?_⟩
  · have h1 : loIndex (1441 : Int) = 1381 := by decide
    have h2 : hiIndex (1441 : Int) = 61 := by decide
    rw [windowIndices_eq_ranges, h1, h2]
    norm_num
  · set_option maxRecDepth 100000 in decide

/-- C6 (amended): the Window Selector performs no validation at all: an
out-of-range filter value is neither rejected nor clamped — the mod-1440
arithmetic silently maps it to the window of the congruent in-range
center, both as indices and as selected trips. -/
theorem C6_out_of_range_amended (m : Int) (hm : 0 ≤ m) :
    windowIndices (m + 1440) = windowIndices m ∧
    ∀ (trips : List Trip) (tripsByMinute : List (List Trip)),
      filterByMinute trips tripsByMinute (m + 1440) =
        filterByMinute trips tripsByMinute m := by
  have h1 := loIndex_add_period m hm
  have h2 := hiIndex_add_period m hm
  constructor
  · unfold windowIndices
    rw [h1, h2]
  · intro trips tripsByMinute
    unfold filterByMinute
    simp only [if_neg (show ¬(m + 1440 = -1) by omega),
      if_neg (show ¬(m = -1) by omega), h1, h2]

theorem C6_out_of_range_amended_witness :
    (0 : Int) ≤ 5 ∧ windowIndices ((5 : Int) + 1440) = windowIndices (5 : Int) :=
  ⟨by decide, (C6_out_of_range_amended 5 (by decide)).1⟩

/-- C10: the filter value 1440 (the slider maximum, outside `[0, 1439]`
and distinct from the sentinel) is accepted without error and behaves
exactly like center minute 0: same window `{1380..1439} ∪ {0..60}` and,
for every bucket set, the same selected trips. -/
theorem C10_filter_1440_same_as_zero :
    windowIndices (1440 : Int) = windowIndices (0 : Int) ∧
    windowIndices (1440 : Int) = List.range' 1380 60 ++ List.range' 0 61 ∧
    ∀ (trips : List Trip) (tripsByMinute : List (List Trip)),
      filterByMinute trips tripsByMinute (1440 : Int) =
        filterByMinute trips tripsByMinute (0 : Int) := by
  refine ⟨rfl, ?_, ?_⟩
  · have h1 : loIndex (1440 : Int) = 1380 := by decide
    have h2 : hiIndex (1440 : Int) = 60 := by decide
    rw [windowIndices_eq_ranges, h1, h2]
    norm_num
  · intro trips tripsByMinute
    rfl

/-- C8: every bucket index the engine uses is in `[0, 1439]`: the
Bucketer's write index `hour * 60 + minute` stays below 1440 for valid
wall-clock times, the selector's mod-1440 indices stay below 1440 for
every filter value, and both bucket arrays keep length 1440, so no
access is out of range. -/
theorem C8_bucket_indices_in_bounds :
    (∀ d : DateTime, validDate d → minutesSinceMidnight d < 1440) ∧
    (∀ t : Trip, validTrip t → startMinute t < 1440 ∧ endMinute t < 1440) ∧
    (∀ m : Int, loIndex m < 1440 ∧ hiIndex m < 1440) ∧
    (∀ m : Int, ∀ i ∈ windowIndices m, i < 1440) ∧
    (∀ trips : List Trip, (departuresByMinute trips).length = 1440 ∧
      (arrivalsByMinute trips).length = 1440) := by
  refine ⟨?_, ?_, ?_, ?_, ?_⟩
  · intro d hd
    unfold validDate at hd
    unfold minutesSinceMidnight
    omega
  · intro t ht
    unfold validTrip at ht
    obtain ⟨h1, h2⟩ := ht
    unfold validDate at h1 h2
    unfold startMinute endMinute minutesSinceMidnight
    omega
  · exact fun m => ⟨loIndex_lt m, hiIndex_lt m⟩
  · intro m i hmem
    have hlo := loIndex_lt m
    have hhi := hiIndex_lt m
    rw [windowIndices_eq_ranges] at hmem
    split at hmem
    · rw [List.mem_range'_1] at hmem
      omega
    · rcases List.mem_append.mp hmem with h1 | h1 <;>
        rw [List.mem_range'_1] at h1 <;> omega
  · exact fun trips => ⟨bucketize_length _ _, bucketize_length _ _⟩

theorem C8_bucket_indices_in_bounds_witness :
    validTrip tripCA ∧ startMinute tripCA < 1440 ∧ endMinute tripCA < 1440 :=
  ⟨by decide, C8_bucket_indices_in_bounds.2.1 tripCA (by decide)⟩

/-! ### Counting lemmas for the rollup embedding -/

theorem getCount_nil (k : String) : getCount [] k = 0 := rfl

theorem getCount_cons (a : String) (v : Nat) (rest : List (String × Nat))
    (k : String) :
    getCount ((a, v) :: rest) k = if k = a then v else getCount rest k := by
  unfold getCount
  rw [List.lookup_cons]
  by_cases h : k = a
  · have hb : (k == a) = true := by simp [h]
    rw [hb, if_pos h]
    rfl
  · have hb : (k == a) = false := by simp [h]
    rw [hb, if_neg h]

theorem getCount_incr (m : List (String × Nat)) (k' k : String) :
    getCount (incr m k') k = getCount m k + (if k' == k then 1 else 0) := by
  induction m with
  | nil =>
    show getCount [(k', 1)] k = getCount [] k + _
    rw [getCount_cons, getCount_nil]
    by_cases h : k = k'
    · simp [h]
    · have hb : (k' == k) = false := by
        simp only [beq_eq_false_iff_ne, ne_eq]
        exact fun e => h e.symm
      simp [h, hb]
  | cons p rest ih =>
    obtain ⟨a, v⟩ := p
    simp only [incr]
    by_cases ha : a = k'
    · rw [if_pos ha, getCount_cons, getCount_cons]
      by_cases hk : k = a
      · rw [if_pos hk, if_pos hk]
        have : (k' == k) = true := by
          simp only [beq_iff_eq]
          rw [← ha, hk]
        simp [this]
      · rw [if_neg hk, if_neg hk]
        have : (k' == k) = false := by
          simp only [beq_eq_false_iff_ne, ne_eq]
          intro e
          exact hk (by rw [← e, ← ha])
        simp [this]
    · rw [if_neg ha, getCount_cons, getCount_cons, ih]
      by_cases hk : k = a
      · rw [if_pos hk, if_pos hk]
        have : (k' == k) = false := by
          simp only [beq_eq_false_iff_ne, ne_eq]
          intro e
          exact ha ((e.trans hk).symm)
        simp [this]
      · rw [if_neg hk, if_neg hk]

theorem getCount_foldl_incr (key : Trip → String) :
    ∀ (ts : List Trip) (acc : List (String × Nat)) (k : String),
      getCount (ts.foldl (fun m t => incr m (key t)) acc) k
        = getCount acc k + ts.countP (fun t => key t == k)
  | [], _, _ => by simp
  | t :: ts, acc, k => by
      rw [List.foldl_cons, getCount_foldl_incr key ts, getCount_incr,
        List.countP_cons]
      omega

theorem getCount_rollup (key : Trip → String) (ts : List Trip) (k : String) :
    getCount (rollupCount key ts) k = ts.countP (fun t => key t == k) := by
  unfold rollupCount
  rw [getCount_foldl_incr, getCount_nil, Nat.zero_add]

/-! ### The bucket arrays hold each trip exactly once -/

theorem flatten_pushAt (bs : List (List Trip)) (i : Nat) (t : Trip)
    (h : i < bs.length) :
    List.Perm (pushAt bs i t).flatten (t :: bs.flatten) := by
  induction bs generalizing i with
  | nil => simp at h
  | cons b rest ih =>
    cases i with
    | zero =>
      have e : pushAt (b :: rest) 0 t = (b ++ [t]) :: rest := by
        simp [pushAt]
      rw [e, List.flatten_cons, List.append_assoc, List.singleton_append,
        List.flatten_cons]
      exact List.perm_middle
    | succ i =>
      have e : pushAt (b :: rest) (i + 1) t = b :: pushAt rest i t := by
        simp [pushAt]
      have h' : i < rest.length := by
        simpa using h
      rw [e, List.flatten_cons, List.flatten_cons]
      exact (List.Perm.append_left b (ih i h')).trans List.perm_middle

theorem foldl_pushAt_flatten_perm (key : Trip → Nat) :
    ∀ (ts : List Trip) (acc : List (List Trip)),
      (∀ t ∈ ts, key t < 1440) → acc.length = 1440 →
      List.Perm ((ts.foldl (fun bs t => pushAt bs (key t) t) acc).flatten)
        (ts ++ acc.flatten)
  | [], _, _, _ => by simp
  | t :: ts, acc, hk, hlen => by
      rw [List.foldl_cons]
      have h1 : (pushAt acc (key t) t).length = 1440 := by
        rw [pushAt_length, hlen]
      have h2 := foldl_pushAt_flatten_perm key ts (pushAt acc (key t) t)
        (fun x hx => hk x (List.mem_cons_of_mem t hx)) h1
      have h3 : List.Perm (pushAt acc (key t) t).flatten (t :: acc.flatten) :=
        flatten_pushAt acc (key t) t
          (by rw [hlen]; exact hk t (List.mem_cons_self t ts))
      rw [List.cons_append]
      exact (h2.trans (List.Perm.append_left ts h3)).trans List.perm_middle

theorem bucketize_flatten_perm (key : Trip → Nat) (trips : List Trip)
    (hk : ∀ t ∈ trips, key t < 1440) :
    List.Perm ((bucketize key trips).flatten) trips := by
  unfold bucketize
  have h0 : (List.replicate 1440 ([] : List Trip)).flatten = [] := by
    rw [List.flatten_eq_nil_iff]
    intro l hl
    exact List.eq_of_mem_replicate hl
  have h := foldl_pushAt_flatten_perm key trips (List.replicate 1440 []) hk
    (by rw [List.length_replicate])
  rw [h0, List.append_nil] at h
  exact h

theorem foldl_pushAt_mem_key (key : Trip → Nat) :
    ∀ (ts : List Trip) (acc : List (List Trip)),
      (∀ i, ∀ x ∈ acc.getD i [], key x = i) →
      ∀ i, ∀ x ∈ (ts.foldl (fun bs t => pushAt bs (key t) t) acc).getD i [],
        key x = i
  | [], _, hacc => hacc
  | t :: ts, acc, hacc => by
      rw [List.foldl_cons]
      apply foldl_pushAt_mem_key key ts
      intro i x hx
      unfold pushAt at hx
      rw [List.getD_eq_getElem?_getD, List.getElem?_set] at hx
      split at hx
      · split at hx
        · simp only [Option.getD_some] at hx
          rcases List.mem_append.mp hx with h1 | h1
          · have := hacc (key t) x h1
            omega
          · rw [List.mem_singleton] at h1
            subst h1
            omega
        · simp at hx
      · exact hacc i x (by rw [List.getD_eq_getElem?_getD]; exact hx)

theorem bucketize_mem_key (key : Trip → Nat) (trips : List Trip) :
    ∀ i, ∀ x ∈ (bucketize key trips).getD i [], key x = i := by
  unfold bucketize
  apply foldl_pushAt_mem_key
  intro i x hx
  rw [List.getD_eq_getElem?_getD, List.getElem?_replicate] at hx
  split at hx <;> simp at hx

/-! ### The fused ingestion loop equals two independent bucket passes -/

theorem foldl_pair_split :
    ∀ (ts : List Trip) (a b : List (List Trip)),
      ts.foldl (fun bs t =>
          (pushAt bs.1 (startMinute t) t, pushAt bs.2 (endMinute t) t)) (a, b)
        = (ts.foldl (fun bs t => pushAt bs (startMinute t) t) a,
           ts.foldl (fun bs t => pushAt bs (endMinute t) t) b)
  | [], _, _ => rfl
  | t :: ts, a, b => by
      rw [List.foldl_cons, List.foldl_cons, List.foldl_cons]
      exact foldl_pair_split ts _ _

theorem ingest_eq (trips : List Trip) :
    ingest trips = (departuresByMinute trips, arrivalsByMinute trips) := by
  unfold ingest departuresByMinute arrivalsByMinute bucketize
  exact foldl_pair_split trips _ _

theorem startMinute_lt (trips : List Trip) (hv : ∀ t ∈ trips, validTrip t) :
    ∀ t ∈ trips, startMinute t < 1440 := by
  intro t ht
  have h := hv t ht
  unfold validTrip validDate at h
  unfold startMinute minutesSinceMidnight
  omega

theorem endMinute_lt (trips : List Trip) (hv : ∀ t ∈ trips, validTrip t) :
    ∀ t ∈ trips, endMinute t < 1440 := by
  intro t ht
  have h := hv t ht
  unfold validTrip validDate at h
  unfold endMinute minutesSinceMidnight
  omega

/-- C3: after one ingestion pass over initially empty buckets, every trip
occurs in the bucket arrays with exactly the multiplicity it has in the
trip log — in the departure bucket of its start minute and the arrival
bucket of its end minute — so the summed bucket lengths equal the trip
count and no trip is dropped (station ids play no role in bucketing). -/
theorem C3_each_trip_in_one_bucket (trips : List Trip)
    (hv : ∀ t ∈ trips, validTrip t) :
    ((departuresByMinute trips).map List.length).sum = trips.length ∧
    ((arrivalsByMinute trips).map List.length).sum = trips.length ∧
    (∀ t : Trip, (departuresByMinute trips).flatten.count t = trips.count t) ∧
    (∀ t : Trip, (arrivalsByMinute trips).flatten.count t = trips.count t) ∧
    (∀ i, ∀ t ∈ (departuresByMinute trips).getD i [], startMinute t = i) ∧
    (∀ i, ∀ t ∈ (arrivalsByMinute trips).getD i [], endMinute t = i) := by
  have hpd := bucketize_flatten_perm startMinute trips (startMinute_lt trips hv)
  have hpa := bucketize_flatten_perm endMinute trips (endMinute_lt trips hv)
  unfold departuresByMinute arrivalsByMinute
  refine ⟨?_, ?_, fun t => hpd.count_eq t, fun t => hpa.count_eq t,
    bucketize_mem_key startMinute trips, bucketize_mem_key endMinute trips⟩
  · rw [← List.length_flatten]
    exact hpd.length_eq
  · rw [← List.length_flatten]
    exact hpa.length_eq

theorem C3_each_trip_in_one_bucket_witness :
    (∀ t ∈ [tripAB], validTrip t) ∧
    ((departuresByMinute [tripAB]).map List.length).sum = [tripAB].length :=
  ⟨by decide, (C3_each_trip_in_one_bucket [tripAB] (by decide)).1⟩

/-- C5: the unfiltered (sentinel `-1`) path aggregates the full trip list,
and its per-station counts coincide with counting over the flattening of
all 1440 buckets; the flattened buckets also have the same total size. -/
theorem C5_unfiltered_equals_bucket_union (trips : List Trip)
    (hv : ∀ t ∈ trips, validTrip t) :
    (∀ depsByMinute : List (List Trip),
      filterByMinute trips depsByMinute (-1) = trips) ∧
    (∀ depsByMinute : List (List Trip),
      filteredDepartures trips depsByMinute (departuresMap trips) (-1)
        = departuresMap trips) ∧
    (∀ k, getCount (departuresMap trips) k
        = getCount (rollupCount (fun t => t.start_station_id)
            ((departuresByMinute trips).flatten)) k) ∧
    (∀ k, getCount (arrivalsMap trips) k
        = getCount (rollupCount (fun t => t.end_station_id)
            ((arrivalsByMinute trips).flatten)) k) ∧
    (departuresByMinute trips).flatten.length = trips.length ∧
    (arrivalsByMinute trips).flatten.length = trips.length := by
  have hpd := bucketize_flatten_perm startMinute trips (startMinute_lt trips hv)
  have hpa := bucketize_flatten_perm endMinute trips (endMinute_lt trips hv)
  refine ⟨fun _ => rfl, fun _ => rfl, ?_, ?_, hpd.length_eq, hpa.length_eq⟩
  · intro k
    unfold departuresMap departuresByMinute
    rw [getCount_rollup, getCount_rollup]
    exact (hpd.countP_eq _).symm
  · intro k
    unfold arrivalsMap arrivalsByMinute
    rw [getCount_rollup, getCount_rollup]
    exact (hpa.countP_eq _).symm

theorem C5_unfiltered_equals_bucket_union_witness :
    (∀ t ∈ [tripAB, tripBA], validTrip t) ∧
    getCount (departuresMap [tripAB, tripBA]) "A"
      = getCount (rollupCount (fun t => t.start_station_id)
          ((departuresByMinute [tripAB, tripBA]).flatten)) "A" :=
  ⟨by decide,
    (C5_unfiltered_equals_bucket_union [tripAB, tripBA] (by decide)).2.2.1 "A"⟩

/-- C4: the Traffic View Builder emits exactly one record per registry
station, in registry order, with `arrivals`/`departures` looked up with a
zero default and `totalTraffic` their sum; a station absent from both
maps gets an all-zero record. -/
theorem C4_traffic_view_builder (stations : List Station)
    (fArr fDep : List (String × Nat)) :
    (filteredStations stations fArr fDep).length = stations.length ∧
    (∀ (i : Nat) (hi : i < stations.length)
        (hr : i < (filteredStations stations fArr fDep).length),
      ((filteredStations stations fArr fDep).get ⟨i, hr⟩).id
          = (stations.get ⟨i, hi⟩).id ∧
      ((filteredStations stations fArr fDep).get ⟨i, hr⟩).arrivals
          = getCount fArr (stations.get ⟨i, hi⟩).id ∧
      ((filteredStations stations fArr fDep).get ⟨i, hr⟩).departures
          = getCount fDep (stations.get ⟨i, hi⟩).id ∧
      ((filteredStations stations fArr fDep).get ⟨i, hr⟩).totalTraffic
          = ((filteredStations stations fArr fDep).get ⟨i, hr⟩).arrivals
            + ((filteredStations stations fArr fDep).get ⟨i, hr⟩).departures) ∧
    (∀ r ∈ filteredStations stations fArr fDep,
      r.totalTraffic = r.arrivals + r.departures) ∧
    (∀ s ∈ stations, fArr.lookup s.id = none → fDep.lookup s.id = none →
      ∃ r ∈ filteredStations stations fArr fDep,
        r.id = s.id ∧ r.arrivals = 0 ∧ r.departures = 0 ∧ r.totalTraffic = 0) := by
  refine ⟨?_, ?_, ?_, ?_⟩
  · unfold filteredStations
    rw [List.length_map]
  · intro i hi hr
    unfold filteredStations
    simp only [List.get_eq_getElem, List.getElem_map]
    exact ⟨trivial, trivial, trivial, trivial⟩
  · intro r hr
    unfold filteredStations at hr
    rw [List.mem_map] at hr
    obtain ⟨s, _, rfl⟩ := hr
    rfl
  · intro s hs h1 h2
    refine ⟨{ id := s.id, name := s.name, lat := s.lat, long := s.long,
              arrivals := getCount fArr s.id,
              departures := getCount fDep s.id,
              totalTraffic := getCount fArr s.id + getCount fDep s.id },
      List.mem_map_of_mem _ hs, rfl, ?_, ?_, ?_⟩
    · show getCount fArr s.id = 0
      unfold getCount
      rw [h1]
      rfl
    · show getCount fDep s.id = 0
      unfold getCount
      rw [h2]
      rfl
    · show getCount fArr s.id + getCount fDep s.id = 0
      unfold getCount
      rw [h1, h2]
      rfl

theorem C4_traffic_view_builder_witness :
    stationA ∈ [stationA] ∧
    (([("B", 3)] : List (String × Nat)).lookup stationA.id = none) ∧
    (∃ r ∈ filteredStations [stationA] [("B", 3)] [],
      r.id = stationA.id ∧ r.arrivals = 0 ∧ r.departures = 0 ∧
        r.totalTraffic = 0) :=
  ⟨by decide, by decide,
    (C4_traffic_view_builder [stationA] [("B", 3)] []).2.2.2 stationA
      (by decide) (by decide) rfl⟩

/-- C7: a trip whose start (or end) station id is unknown to the registry
still bumps the departures (or arrivals) aggregate map under that id, but
the Traffic View Builder, iterating only registry stations, emits no
record with that id. -/
theorem C7_unknown_station (trips : List Trip) (stations : List Station)
    (fArr fDep : List (String × Nat)) (uid : String) (t : Trip)
    (ht : t ∈ trips) (hunknown : ∀ s ∈ stations, s.id ≠ uid) :
    (t.start_station_id = uid → 1 ≤ getCount (departuresMap trips) uid) ∧
    (t.end_station_id = uid → 1 ≤ getCount (arrivalsMap trips) uid) ∧
    (∀ r ∈ filteredStations stations fArr fDep, r.id ≠ uid) := by
  refine ⟨?_, ?_, ?_⟩
  · intro he
    unfold departuresMap
    rw [getCount_rollup]
    have hpos : 0 < List.countP (fun x => x.start_station_id == uid) trips := by
      rw [List.countP_pos_iff]
      exact ⟨t, ht, by simp [he]⟩
    omega
  · intro he
    unfold arrivalsMap
    rw [getCount_rollup]
    have hpos : 0 < List.countP (fun x => x.end_station_id == uid) trips := by
      rw [List.countP_pos_iff]
      exact ⟨t, ht, by simp [he]⟩
    omega
  · intro r hr
    unfold filteredStations at hr
    rw [List.mem_map] at hr
    obtain ⟨s, hs, rfl⟩ := hr
    exact hunknown s hs

theorem C7_unknown_station_witness :
    tripCA ∈ [tripCA] ∧ (∀ s ∈ [stationA], s.id ≠ "C") ∧
    1 ≤ getCount (departuresMap [tripCA]) "C" :=
  ⟨by decide, by decide,
    (C7_unknown_station [tripCA] [stationA] [] [] "C" tripCA (by decide)
      (by decide)).1 rfl⟩

/-- C9: the Aggregator is a pure function of the (immutable) bucket sets,
the cached unfiltered maps and the filter value: two runs over the same
inputs — in particular two successive runs — produce identical maps. -/
theorem C9_aggregator_deterministic (trips : List Trip)
    (depsByMinute arrsByMinute : List (List Trip))
    (departures arrivals : List (String × Nat)) (timeFilter : Int) :
    (aggregatorRunTwice trips depsByMinute arrsByMinute departures arrivals
        timeFilter).1 =
      (aggregatorRunTwice trips depsByMinute arrsByMinute departures arrivals
        timeFilter).2 ∧
    aggregatorRun trips depsByMinute arrsByMinute departures arrivals timeFilter
      = aggregatorRun trips depsByMinute arrsByMinute departures arrivals
          timeFilter :=
  ⟨rfl, rfl⟩

end BikeWatch
